import Mathlib

/-!
# Verification development for the CV Bank application

Shallow embedding of `src/cvbank.py`, a Streamlit + Firestore CV-publishing
app.  Documents are modelled as association lists from field names to values
(a Firestore document / Python dict has unique keys; where a theorem needs
that fact it carries an explicit `Nodup` hypothesis on the key list).  The
Firestore client and the possibility of a network/permission failure are
modelled by an `Option Unit` client handle and a `storeOk : Bool` flag: when
`storeOk = false` every store call inside the `try` block raises, which the
Python code catches with `except Exception`, shows as `st.error`, and
swallows.  Streamlit session state is modelled by an explicit `UIState`
record and the sidebar interactions by step functions on it.
-/

namespace CVBank

/-- A Firestore field value as used by the app: either a string or a list of
strings (the three multiselect fields and `additional_info` are lists, the
rest are strings). -/
inductive Value where
  | s (v : String)
  | l (v : List String)
  deriving DecidableEq, Repr

/-- A document / Python dict: an association list of field name to value.
Python dicts have unique keys; theorems that depend on this carry a `Nodup`
hypothesis. -/
abbrev Doc := List (String × Value)

/-- Look up a field in a document (first binding, as a dict lookup). -/
def getField : Doc → String → Option Value
  | [], _ => none
  | (k1, v1) :: rest, k => if k1 = k then some v1 else getField rest k

/-- `d[k] = v` on a Python dict: replace the (first) binding of `k`, or
append a new binding when `k` is absent. -/
def setField : Doc → String → Value → Doc
  | [], k, v => [(k, v)]
  | (k1, v1) :: rest, k, v =>
      if k1 = k then (k, v) :: rest else (k1, v1) :: setField rest k v

/-- The last value bound to `k` in a list of bindings (what a left-to-right
sequence of dict assignments leaves in place). -/
def lastVal : Doc → String → Option Value
  | [], _ => none
  | (k1, v1) :: rest, k =>
      match lastVal rest k with
      | some v => some v
      | none => if k1 = k then some v1 else none

/-- Apply the bindings of `data` to `base` in order, as Python's
`{**base, **data}` merge or Firestore's `update(data)` does field by field. -/
def mergeDoc (base : Doc) (data : Doc) : Doc :=
  data.foldl (fun acc kv => setField acc kv.1 kv.2) base

@[simp]
theorem getField_nil (k : String) : getField [] k = none := rfl

@[simp]
theorem mergeDoc_nil (base : Doc) : mergeDoc base [] = base := rfl

theorem mergeDoc_cons (base : Doc) (k : String) (v : Value) (rest : Doc) :
    mergeDoc base ((k, v) :: rest) = mergeDoc (setField base k v) rest := rfl

theorem getField_setField (d : Doc) (k : String) (v : Value) :
    getField (setField d k v) k = some v := by
  induction d with
  | nil => simp [setField, getField]
  | cons hd tl ih =>
      obtain ⟨k1, v1⟩ := hd
      by_cases h : k1 = k
      · simp [setField, h, getField]
      · simp [setField, h, getField, ih]

theorem getField_setField_ne (d : Doc) (k k' : String) (v : Value) (hne : k' ≠ k) :
    getField (setField d k' v) k = getField d k := by
  induction d with
  | nil => simp [setField, getField, hne]
  | cons hd tl ih =>
      obtain ⟨k1, v1⟩ := hd
      by_cases h : k1 = k'
      · subst h
        simp [setField, getField, hne]
      · by_cases h2 : k1 = k
        · subst h2
          simp [setField, h, getField]
        · simp [setField, h, getField, h2, ih]

theorem getField_mergeDoc (base data : Doc) (k : String) :
    getField (mergeDoc base data) k =
      match lastVal data k with
      | some v => some v
      | none => getField base k := by
  induction data generalizing base with
  | nil => simp [mergeDoc, lastVal]
  | cons hd tl ih =>
      obtain ⟨k1, v1⟩ := hd
      rw [mergeDoc_cons, ih]
      cases htl : lastVal tl k with
      | some v => simp [lastVal, htl]
      | none =>
          by_cases h : k1 = k
          · subst h
            simp [lastVal, htl, getField_setField]
          · simp [lastVal, htl, h, getField_setField_ne base k k1 v1 h]

/-- Keys of `setField d k v`: unchanged when `k` is already bound, extended
by `k` otherwise. -/
theorem keys_setField (d : Doc) (k : String) (v : Value) :
    (setField d k v).map Prod.fst = d.map Prod.fst ∨
      (setField d k v).map Prod.fst = d.map Prod.fst ++ [k] := by
  induction d with
  | nil => right; simp [setField]
  | cons hd tl ih =>
      obtain ⟨k1, v1⟩ := hd
      by_cases h : k1 = k
      · left; simp [setField, h]
      · rcases ih with ih | ih
        · left; simp [setField, h, ih]
        · right; simp [setField, h, ih]

theorem getField_eq_none_of_not_mem (d : Doc) (k : String)
    (h : k ∉ d.map Prod.fst) : getField d k = none := by
  induction d with
  | nil => rfl
  | cons hd tl ih =>
      obtain ⟨k1, v1⟩ := hd
      simp only [List.map_cons, List.mem_cons] at h
      push_neg at h
      have hne : ¬k1 = k := fun hh => h.1 hh.symm
      simp [getField, hne, ih h.2]

theorem lastVal_eq_getField (d : Doc) (k : String)
    (hnd : (d.map Prod.fst).Nodup) : lastVal d k = getField d k := by
  induction d with
  | nil => rfl
  | cons hd tl ih =>
      obtain ⟨k1, v1⟩ := hd
      simp only [List.map_cons, List.nodup_cons] at hnd
      by_cases h : k1 = k
      · subst h
        have hnone : getField tl k1 = none :=
          getField_eq_none_of_not_mem tl k1 hnd.1
        simp [lastVal, getField, ih hnd.2, hnone]
      · cases hg : getField tl k with
        | some v => simp [lastVal, getField, ih hnd.2, hg, h]
        | none => simp [lastVal, getField, ih hnd.2, hg, h]

theorem getField_eq_some_mem (d : Doc) (k : String) (v : Value)
    (h : getField d k = some v) : (k, v) ∈ d := by
  induction d with
  | nil => simp [getField] at h
  | cons hd tl ih =>
      obtain ⟨k1, v1⟩ := hd
      by_cases h1 : k1 = k
      · subst h1
        simp [getField] at h
        simp [h]
      · simp only [getField, if_neg h1] at h
        exact List.mem_cons_of_mem _ (ih h)

/-- `setField` is a no-op when the field already holds that value. -/
theorem setField_self (d : Doc) (k : String) (v : Value)
    (h : getField d k = some v) : setField d k v = d := by
  induction d with
  | nil => simp [getField] at h
  | cons hd tl ih =>
      obtain ⟨k1, v1⟩ := hd
      by_cases h1 : k1 = k
      · subst h1
        have hv : v1 = v := by simpa [getField] using h
        subst hv
        simp [setField]
      · simp only [getField, if_neg h1] at h
        simp [setField, h1, ih h]

/-- Merging data all of whose bindings already hold in `base` is a no-op. -/
theorem mergeDoc_self (base data : Doc)
    (h : ∀ kv ∈ data, getField base kv.1 = some kv.2) :
    mergeDoc base data = base := by
  induction data with
  | nil => rfl
  | cons hd tl ih =>
      rw [mergeDoc_cons, setField_self base hd.1 hd.2 (h hd (by simp))]
      exact ih fun kv hm => h kv (List.mem_cons_of_mem _ hm)

/-- Membership in `setField d k v` for a dict with unique keys: the new
binding, or an old binding of a different key. -/
theorem mem_setField (d : Doc) (k : String) (v : Value) (kv : String × Value)
    (hnd : (d.map Prod.fst).Nodup) (hm : kv ∈ setField d k v) :
    kv = (k, v) ∨ (kv ∈ d ∧ kv.1 ≠ k) := by
  induction d with
  | nil =>
      left
      simpa [setField] using hm
  | cons hd tl ih =>
      obtain ⟨k1, v1⟩ := hd
      simp only [List.map_cons, List.nodup_cons] at hnd
      by_cases h1 : k1 = k
      · subst h1
        simp only [setField, if_pos rfl] at hm
        rcases List.mem_cons.mp hm with h2 | h2
        · left; exact h2
        · right
          refine ⟨List.mem_cons_of_mem _ h2, ?_⟩
          intro hk
          apply hnd.1
          rw [← hk]
          exact List.mem_map_of_mem Prod.fst h2
      · simp only [setField, if_neg h1] at hm
        rcases List.mem_cons.mp hm with h2 | h2
        · right
          constructor
          · rw [h2]; exact List.mem_cons_self _ _
          · rw [h2]; exact h1
        · rcases ih hnd.2 h2 with h3 | h3
          · left; exact h3
          · right; exact ⟨List.mem_cons_of_mem _ h3.1, h3.2⟩

/-! ## The Firestore collection

`artifacts/{appId}/public/data/cv_profiles` is modelled as a list of
(document id, document) pairs plus a counter from which `add` derives the
next store-assigned id. -/

/-- The shared `cv_profiles` collection. -/
structure Store where
  docs : List (String × Doc)
  nextId : Nat
  deriving DecidableEq, Repr

/-- The auto-generated id Firestore assigns on `add`. -/
def freshId (st : Store) : String := "doc" ++ toString st.nextId

/-- `collection.add(data)`: append a new document under a store-assigned id. -/
def storeAdd (st : Store) (data : Doc) : Store :=
  { docs := st.docs ++ [(freshId st, data)], nextId := st.nextId + 1 }

/-- Look up a document by id (document ids are unique in Firestore; the model
reads the first match). -/
def storeFind : List (String × Doc) → String → Option Doc
  | [], _ => none
  | (i, d) :: rest, did => if i = did then some d else storeFind rest did

/-- `doc_ref.update(data)`: overwrite the named document's fields with the
fields of `data`, keeping the rest; `none` when the document does not exist
(Firestore raises NotFound, caught by the caller's `except`). -/
def storeUpdateDocs : List (String × Doc) → String → Doc → Option (List (String × Doc))
  | [], _, _ => none
  | (i, d) :: rest, did, data =>
      if i = did then some ((i, mergeDoc d data) :: rest)
      else (storeUpdateDocs rest did data).map (fun r => (i, d) :: r)

/-- Outcome message shown by `save_profile` via `st.error`/`st.success`. -/
inductive SaveMsg where
  | noClient
  | updated
  | published
  | errorMsg
  deriving DecidableEq, Repr

/-- `save_profile(db_client, profile_data, user_id, doc_id=None)`.
`db_client = none` models `db_client is None`; `storeOk = false` models a
store exception inside the `try` block (caught, reported, nothing written).
The function first executes `profile_data["user_id"] = user_id` and then
either updates the existing document or adds a new one. -/
def save_profile (db_client : Option Unit) (storeOk : Bool) (st : Store)
    (profile_data : Doc) (user_id : String) (doc_id : Option String) :
    Store × SaveMsg :=
  match db_client with
  | none => (st, SaveMsg.noClient)
  | some _ =>
      let stamped := setField profile_data "user_id" (Value.s user_id)
      if storeOk then
        match doc_id with
        | some did =>
            match storeUpdateDocs st.docs did stamped with
            | some docs2 => ({ st with docs := docs2 }, SaveMsg.updated)
            | none => (st, SaveMsg.errorMsg)
        | none => (storeAdd st stamped, SaveMsg.published)
      else (st, SaveMsg.errorMsg)

/-- Outcome message shown by `load_profiles` via `st.error`. -/
inductive LoadMsg where
  | ok
  | noClient
  | errorShown
  deriving DecidableEq, Repr

/-- The record built for each streamed document: `{"id": doc.id, **doc.to_dict()}`
— start from the id binding and merge the document's own fields over it. -/
def attachId (i : String) (d : Doc) : Doc :=
  mergeDoc [("id", Value.s i)] d

/-- `load_profiles(db_client)`: every document of the collection with its id
attached, or `[]` with an error message on a missing client or a store
exception. -/
def load_profiles (db_client : Option Unit) (storeOk : Bool) (st : Store) :
    List Doc × LoadMsg :=
  match db_client with
  | none => ([], LoadMsg.noClient)
  | some _ =>
      if storeOk then (st.docs.map (fun q => attachId q.1 q.2), LoadMsg.ok)
      else ([], LoadMsg.errorShown)

theorem storeUpdateDocs_of_find (docs : List (String × Doc)) (did : String)
    (d data : Doc) (hfind : storeFind docs did = some d) :
    ∃ docs2, storeUpdateDocs docs did data = some docs2 ∧
      storeFind docs2 did = some (mergeDoc d data) ∧
      docs2.map Prod.fst = docs.map Prod.fst := by
  induction docs with
  | nil => simp [storeFind] at hfind
  | cons hd tl ih =>
      obtain ⟨i, d1⟩ := hd
      by_cases h : i = did
      · subst h
        have hd1 : d1 = d := by simpa [storeFind] using hfind
        refine ⟨(i, mergeDoc d data) :: tl, ?_, ?_, ?_⟩
        · simp [storeUpdateDocs, hd1]
        · simp [storeFind]
        · simp
      · simp only [storeFind, if_neg h] at hfind
        obtain ⟨docs2, h1, h2, h3⟩ := ih hfind
        refine ⟨(i, d1) :: docs2, ?_, ?_, ?_⟩
        · simp [storeUpdateDocs, h, h1]
        · simp [storeFind, h, h2]
        · simp [h3]

theorem storeUpdateDocs_of_find_none (docs : List (String × Doc)) (did : String)
    (data : Doc) (hfind : storeFind docs did = none) :
    storeUpdateDocs docs did data = none := by
  induction docs with
  | nil => rfl
  | cons hd tl ih =>
      obtain ⟨i, d1⟩ := hd
      by_cases h : i = did
      · simp [storeFind, h] at hfind
      · simp only [storeFind, if_neg h] at hfind
        simp [storeUpdateDocs, h, ih hfind]

theorem storeUpdateDocs_self (docs : List (String × Doc)) (did : String)
    (d data : Doc) (hfind : storeFind docs did = some d)
    (hmerge : mergeDoc d data = d) :
    storeUpdateDocs docs did data = some docs := by
  induction docs with
  | nil => simp [storeFind] at hfind
  | cons hd tl ih =>
      obtain ⟨i, d1⟩ := hd
      by_cases h : i = did
      · subst h
        have hd1 : d1 = d := by simpa [storeFind] using hfind
        simp [storeUpdateDocs, hd1, hmerge]
      · simp only [storeFind, if_neg h] at hfind
        simp [storeUpdateDocs, h, ih hfind]

/-! ## The sidebar form and its submission logic -/

/-- Python truthiness of a string: non-empty. -/
def pyTruthy (s : String) : Bool := !(s == "")

/-- Truthiness of `item.strip()`: the string has a non-whitespace character. -/
def strippedTruthy (s : String) : Bool := s.data.any (fun c => !c.isWhitespace)

/-- The widget values of the create/edit form at submission time. -/
structure FormInput where
  name : String
  contact : String
  summary : String
  experience_text : String
  education : String
  skills : String
  experience_select : List String
  profession_select : List String
  expertise_select : List String
  additional_info_list : List String
  deriving DecidableEq, Repr

/-- `[item for item in st.session_state.additional_info_list if item.strip()]`. -/
def cleanedInfo (l : List String) : List String := l.filter strippedTruthy

/-- The rejection test of both submit handlers:
`not any([name, contact, summary, experience_text, education, skills]) and
not cleaned_additional_info`. -/
def emptySubmission (f : FormInput) : Bool :=
  !(pyTruthy f.name || pyTruthy f.contact || pyTruthy f.summary ||
      pyTruthy f.experience_text || pyTruthy f.education || pyTruthy f.skills) &&
    (cleanedInfo f.additional_info_list).isEmpty

/-- The `profile_data` dict built by both submit handlers, in source order. -/
def buildProfileData (f : FormInput) : Doc :=
  [("name", Value.s f.name),
   ("contact", Value.s f.contact),
   ("summary", Value.s f.summary),
   ("experience", Value.l f.experience_select),
   ("profession", Value.l f.profession_select),
   ("expertise", Value.l f.expertise_select),
   ("experience_text", Value.s f.experience_text),
   ("education", Value.s f.education),
   ("skills", Value.s f.skills),
   ("additional_info", Value.l (cleanedInfo f.additional_info_list))]

/-- What the submit handler shows: the empty-submission warning, or the
message from `save_profile`. -/
inductive StepMsg where
  | warnEmpty
  | saved (m : SaveMsg)
  deriving DecidableEq, Repr

/-- The "Publish CV" handler (create branch of `main`). -/
def createSubmit (db_client : Option Unit) (storeOk : Bool) (st : Store)
    (user_id : String) (f : FormInput) : Store × StepMsg :=
  if emptySubmission f then (st, StepMsg.warnEmpty)
  else
    let r := save_profile db_client storeOk st (buildProfileData f) user_id none
    (r.1, StepMsg.saved r.2)

/-- The relevant Streamlit session state: `edit_mode`, `profile_to_edit`,
`additional_info_list`. -/
structure UIState where
  edit_mode : Bool
  profile_to_edit : Doc
  additional_info_list : List String
  deriving DecidableEq, Repr

/-- The reset performed on cancel and after a validated update submission. -/
def resetUI : UIState :=
  { edit_mode := false, profile_to_edit := [], additional_info_list := [""] }

/-- `profile["id"]` for a loaded record (loaded records always carry a
string id; on a malformed record Python would raise instead). -/
def pyGetItemStr (d : Doc) (k : String) : String :=
  match getField d k with
  | some (Value.s s) => s
  | _ => ""

/-- The "Update CV" handler (edit branch of `main`): on an empty submission
warn and leave state untouched; otherwise call `save_profile` with the
record's id and reset the session state — whatever `save_profile` reported. -/
def editSubmit (db_client : Option Unit) (storeOk : Bool) (st : Store)
    (user_id : String) (ui : UIState) (f : FormInput) :
    Store × UIState × StepMsg :=
  if emptySubmission f then (st, ui, StepMsg.warnEmpty)
  else
    let r := save_profile db_client storeOk st (buildProfileData f) user_id
      (some (pyGetItemStr ui.profile_to_edit "id"))
    (r.1, resetUI, StepMsg.saved r.2)

/-- The user interactions available while the sidebar is in edit mode. -/
inductive EditEvent where
  | cancelEdit
  | addBlock
  | submitUpdate (f : FormInput)

/-- One step of the edit-mode sidebar. -/
def editStep (db_client : Option Unit) (storeOk : Bool) (st : Store)
    (user_id : String) (ui : UIState) :
    EditEvent → Store × UIState × Option StepMsg
  | EditEvent.cancelEdit => (st, resetUI, none)
  | EditEvent.addBlock =>
      (st, { ui with additional_info_list := ui.additional_info_list ++ [""] }, none)
  | EditEvent.submitUpdate f =>
      let r := editSubmit db_client storeOk st user_id ui f
      (r.1, r.2.1, some r.2.2)

/-! ## Grouping in the listing view -/

/-- `profile.get(field, ["Not specified"])` followed by `for key in group_key`:
a missing field yields the default bucket, a list yields its elements, and a
(legacy) string value would be iterated character by character. -/
def groupKeyOf (field : String) (p : Doc) : List String :=
  match getField p field with
  | none => ["Not specified"]
  | some (Value.l vs) => vs
  | some (Value.s s) => s.data.map (fun c => String.mk [c])

/-- `grouped_profiles.setdefault(key, []).append(profile)` on an
insertion-ordered dict. -/
def addToGroup : List (String × List Doc) → String → Doc → List (String × List Doc)
  | [], k, p => [(k, [p])]
  | (k1, ms) :: rest, k, p =>
      if k1 = k then (k1, ms ++ [p]) :: rest else (k1, ms) :: addToGroup rest k p

/-- The grouping loop of `main` over all loaded profiles. -/
def groupProfiles (field : String) (ps : List Doc) : List (String × List Doc) :=
  ps.foldl (fun g p => (groupKeyOf field p).foldl (fun g2 k => addToGroup g2 k p) g) []

/-- The members listed under a group key (empty when the key never arose). -/
def groupMembers : List (String × List Doc) → String → List Doc
  | [], _ => []
  | (k1, ms) :: rest, k => if k1 = k then ms else groupMembers rest k

/-- The rendered group sections: subheader `Group: name (len)` then the
member profiles. -/
def renderGrouped (g : List (String × List Doc)) : List (String × Nat × List Doc) :=
  g.map (fun q => (q.1, q.2.length, q.2))

/-- The "None" grouping branch renders each loaded profile once, in order. -/
def renderUngrouped (ps : List Doc) : List Doc := ps

theorem groupMembers_addToGroup (g : List (String × List Doc)) (k k' : String)
    (p : Doc) :
    groupMembers (addToGroup g k p) k' =
      if k = k' then groupMembers g k' ++ [p] else groupMembers g k' := by
  induction g with
  | nil =>
      by_cases h : k = k'
      · simp [addToGroup, groupMembers, h]
      · simp [addToGroup, groupMembers, h]
  | cons hd tl ih =>
      obtain ⟨k1, ms⟩ := hd
      by_cases h1 : k1 = k
      · subst h1
        by_cases h2 : k1 = k'
        · subst h2
          simp [addToGroup, groupMembers]
        · simp [addToGroup, groupMembers, h2]
      · by_cases h2 : k1 = k'
        · subst h2
          have hne : ¬k = k1 := fun hh => h1 hh.symm
          simp [addToGroup, h1, groupMembers, hne]
        · simp [addToGroup, h1, groupMembers, h2, ih]

theorem groupMembers_foldKeys (keys : List String) (g : List (String × List Doc))
    (p : Doc) (k : String) :
    groupMembers (keys.foldl (fun g2 k2 => addToGroup g2 k2 p) g) k =
      groupMembers g k ++ List.replicate (keys.count k) p := by
  induction keys generalizing g with
  | nil => simp
  | cons k1 rest ih =>
      rw [List.foldl_cons, ih, groupMembers_addToGroup]
      by_cases h : k1 = k
      · subst h
        have hc : (k1 :: rest).count k1 = rest.count k1 + 1 := by
          simp [List.count_cons]
        rw [hc, List.replicate_succ]
        simp
      · simp [List.count_cons, h]

theorem groupMembers_foldProfiles (field : String) (ps : List Doc)
    (g : List (String × List Doc)) (k : String) :
    groupMembers
        (ps.foldl
          (fun g2 p => (groupKeyOf field p).foldl (fun g3 k2 => addToGroup g3 k2 p) g2)
          g) k =
      groupMembers g k ++
        (ps.map (fun p => List.replicate ((groupKeyOf field p).count k) p)).flatten := by
  induction ps generalizing g with
  | nil => simp
  | cons p rest ih =>
      rw [List.foldl_cons, ih, groupMembers_foldKeys]
      simp

theorem groupMembers_groupProfiles (field : String) (ps : List Doc) (k : String) :
    groupMembers (groupProfiles field ps) k =
      (ps.map (fun p => List.replicate ((groupKeyOf field p).count k) p)).flatten := by
  rw [groupProfiles, groupMembers_foldProfiles]
  rfl

theorem count_flatten_replicate (ps : List Doc) (p : Doc) (f : Doc → Nat) :
    ((ps.map (fun q => List.replicate (f q) q)).flatten).count p = ps.count p * f p := by
  induction ps with
  | nil => simp
  | cons q rest ih =>
      simp only [List.map_cons, List.flatten_cons, List.count_append, ih]
      by_cases h : q = p
      · subst h
        simp [List.count_replicate, List.count_cons, Nat.succ_mul, Nat.add_comm]
      · simp [List.count_replicate, List.count_cons, h]

/-- Workhorse for the grouping claims: how often a profile occurs in the
member list of a given group key. -/
theorem count_groupMembers (field : String) (ps : List Doc) (k : String) (p : Doc) :
    (groupMembers (groupProfiles field ps) k).count p =
      ps.count p * (groupKeyOf field p).count k := by
  rw [groupMembers_groupProfiles, count_flatten_replicate]

/-! ## Branch equations for the gateway functions -/

theorem save_profile_create (st : Store) (pd : Doc) (uid : String) :
    save_profile (some ()) true st pd uid none =
      (storeAdd st (setField pd "user_id" (Value.s uid)), SaveMsg.published) := rfl

theorem save_profile_update (st : Store) (pd : Doc) (uid did : String) :
    save_profile (some ()) true st pd uid (some did) =
      match storeUpdateDocs st.docs did (setField pd "user_id" (Value.s uid)) with
      | some docs2 => ({ st with docs := docs2 }, SaveMsg.updated)
      | none => (st, SaveMsg.errorMsg) := rfl

theorem save_profile_storeFail (st : Store) (pd : Doc) (uid : String)
    (did : Option String) :
    save_profile (some ()) false st pd uid did = (st, SaveMsg.errorMsg) := rfl

theorem save_profile_noClient (storeOk : Bool) (st : Store) (pd : Doc)
    (uid : String) (did : Option String) :
    save_profile none storeOk st pd uid did = (st, SaveMsg.noClient) := rfl

theorem load_profiles_ok (st : Store) :
    load_profiles (some ()) true st =
      (st.docs.map (fun q => attachId q.1 q.2), LoadMsg.ok) := rfl

theorem nodup_keys_setField (d : Doc) (k : String) (v : Value)
    (hnd : (d.map Prod.fst).Nodup) : ((setField d k v).map Prod.fst).Nodup := by
  induction d with
  | nil => simp [setField]
  | cons hd tl ih =>
      obtain ⟨k1, v1⟩ := hd
      simp only [List.map_cons, List.nodup_cons] at hnd
      by_cases h : k1 = k
      · subst h
        simpa [setField, List.nodup_cons] using hnd
      · simp only [setField, if_neg h, List.map_cons, List.nodup_cons]
        refine ⟨?_, ih hnd.2⟩
        intro hmem
        rcases keys_setField tl k v with hk | hk
        · rw [hk] at hmem
          exact hnd.1 hmem
        · rw [hk] at hmem
          rcases List.mem_append.mp hmem with hm | hm
          · exact hnd.1 hm
          · simp at hm
            exact h hm

theorem lastVal_setField (d : Doc) (k : String) (v : Value)
    (hnd : (d.map Prod.fst).Nodup) : lastVal (setField d k v) k = some v := by
  rw [lastVal_eq_getField _ _ (nodup_keys_setField d k v hnd), getField_setField]

/-! ## The claims -/

/-- **C1**: on every save — create or update — the persisted document's
`user_id` equals the acting user's id, overwriting any `user_id` value the
submitted profile data carried; for a create, the record for the new
document returned by `load_profiles` carries that owner id as well. -/
theorem save_overwrites_owner (st : Store) (pd : Doc) (uid : String)
    (hWF : (pd.map Prod.fst).Nodup) :
    (∃ i d2,
        (save_profile (some ()) true st pd uid none).1.docs = st.docs ++ [(i, d2)] ∧
        getField d2 "user_id" = some (Value.s uid) ∧
        attachId i d2 ∈
          (load_profiles (some ()) true (save_profile (some ()) true st pd uid none).1).1 ∧
        getField (attachId i d2) "user_id" = some (Value.s uid)) ∧
    (∀ did d, storeFind st.docs did = some d →
        ∃ d2,
          storeFind (save_profile (some ()) true st pd uid (some did)).1.docs did
              = some d2 ∧
          getField d2 "user_id" = some (Value.s uid)) := by
  have hlast : lastVal (setField pd "user_id" (Value.s uid)) "user_id"
      = some (Value.s uid) := lastVal_setField pd "user_id" (Value.s uid) hWF
  constructor
  · refine ⟨freshId st, setField pd "user_id" (Value.s uid), ?_, ?_, ?_, ?_⟩
    · rw [save_profile_create]
      rfl
    · exact getField_setField pd "user_id" (Value.s uid)
    · rw [save_profile_create, load_profiles_ok]
      simp [storeAdd]
    · rw [attachId, getField_mergeDoc, hlast]
  · intro did d hfind
    obtain ⟨docs2, h1, h2, h3⟩ :=
      storeUpdateDocs_of_find st.docs did d (setField pd "user_id" (Value.s uid)) hfind
    refine ⟨mergeDoc d (setField pd "user_id" (Value.s uid)), ?_, ?_⟩
    · rw [save_profile_update, h1]
      exact h2
    · rw [getField_mergeDoc, hlast]

/-- Witness for C1: saving a profile that tries to set `user_id` to
`"intruder"` still stores and lists owner `"admin_456"`, and updating an
existing document restamps its owner too. -/
theorem save_overwrites_owner_witness :
    (∃ i d2,
        (save_profile (some ()) true (Store.mk [("doc0", [("name", Value.s "Ada")])] 1)
            [("user_id", Value.s "intruder")] "admin_456" none).1.docs
          = [("doc0", [("name", Value.s "Ada")])] ++ [(i, d2)] ∧
        getField d2 "user_id" = some (Value.s "admin_456") ∧
        attachId i d2 ∈
          (load_profiles (some ()) true
            (save_profile (some ()) true (Store.mk [("doc0", [("name", Value.s "Ada")])] 1)
              [("user_id", Value.s "intruder")] "admin_456" none).1).1 ∧
        getField (attachId i d2) "user_id" = some (Value.s "admin_456")) ∧
    (∀ did d,
        storeFind [("doc0", [("name", Value.s "Ada")])] did = some d →
        ∃ d2,
          storeFind
              (save_profile (some ()) true (Store.mk [("doc0", [("name", Value.s "Ada")])] 1)
                [("user_id", Value.s "intruder")] "admin_456" (some did)).1.docs did
            = some d2 ∧
          getField d2 "user_id" = some (Value.s "admin_456")) :=
  save_overwrites_owner (Store.mk [("doc0", [("name", Value.s "Ada")])] 1)
    [("user_id", Value.s "intruder")] "admin_456" (by decide)

/-- A submission with every text field empty and only blank
`additional_info` entries. -/
def emptyForm : FormInput :=
  { name := "", contact := "", summary := "", experience_text := "",
    education := "", skills := "", experience_select := [],
    profession_select := [], expertise_select := [],
    additional_info_list := ["", "   "] }

/-- A representative non-empty submission. -/
def sampleForm : FormInput :=
  { name := "Ada Lovelace", contact := "ada@example.com",
    summary := "Mathematician", experience_text := "", education := "",
    skills := "Python", experience_select := ["10 Years"],
    profession_select := ["IT", "Finance"], expertise_select := [],
    additional_info_list := ["", "Certified X", ""] }

/-- **C2**: a submission in which every scalar text field is empty and the
`additional_info` list has no non-blank entry is rejected — user-visible
warning, no store call, session state untouched — in both the create and the
edit form; every other submission proceeds to the save call (shown here with
the rejection test characterised against the claim's wording, and with the
write that a successful create performs). -/
theorem empty_submission_rejected (db_client : Option Unit) (storeOk : Bool)
    (st : Store) (uid : String) (ui : UIState) (f : FormInput) :
    (emptySubmission f = true ↔
      (f.name = "" ∧ f.contact = "" ∧ f.summary = "" ∧ f.experience_text = "" ∧
        f.education = "" ∧ f.skills = "" ∧
        ∀ s ∈ f.additional_info_list, strippedTruthy s = false)) ∧
    (emptySubmission f = true →
        createSubmit db_client storeOk st uid f = (st, StepMsg.warnEmpty) ∧
        editSubmit db_client storeOk st uid ui f = (st, ui, StepMsg.warnEmpty)) ∧
    (emptySubmission f = false →
        (∃ m, createSubmit db_client storeOk st uid f
            = ((save_profile db_client storeOk st (buildProfileData f) uid none).1,
                StepMsg.saved m)) ∧
        (∃ m, (editSubmit db_client storeOk st uid ui f).2.2 = StepMsg.saved m) ∧
        (createSubmit (some ()) true st uid f).1.docs.length = st.docs.length + 1) := by
  refine ⟨?_, ?_, ?_⟩
  · rw [emptySubmission]
    simp only [Bool.and_eq_true, Bool.not_eq_true', Bool.or_eq_false_iff,
      pyTruthy, Bool.not_eq_false', beq_iff_eq, cleanedInfo,
      List.isEmpty_iff, List.filter_eq_nil_iff, Bool.not_eq_true]
    tauto
  · intro h
    constructor
    · simp [createSubmit, h]
    · simp [editSubmit, h]
  · intro h
    refine ⟨⟨(save_profile db_client storeOk st (buildProfileData f) uid none).2, ?_⟩,
      ⟨(save_profile db_client storeOk st (buildProfileData f) uid
          (some (pyGetItemStr ui.profile_to_edit "id"))).2, ?_⟩, ?_⟩
    · simp [createSubmit, h]
    · simp [editSubmit, h]
    · simp [createSubmit, h, save_profile_create, storeAdd]

/-- Witness for C2: the all-blank form is rejected with a warning and no
write, and the sample form results in a published document. -/
theorem empty_submission_rejected_witness :
    createSubmit (some ()) true (Store.mk [] 0) "admin_456" emptyForm
        = (Store.mk [] 0, StepMsg.warnEmpty) ∧
    (createSubmit (some ()) true (Store.mk [] 0) "admin_456" sampleForm).1.docs.length
        = (Store.mk [] 0).docs.length + 1 :=
  ⟨((empty_submission_rejected (some ()) true (Store.mk [] 0) "admin_456" resetUI
      emptyForm).2.1 (by decide)).1,
    ((empty_submission_rejected (some ()) true (Store.mk [] 0) "admin_456" resetUI
      sampleForm).2.2 (by decide)).2.2⟩

/-- **C3**: `save_profile` with an existing document id overwrites that
document's fields with the new data, leaves every document id unchanged and
keeps fields the new data does not mention; without an id it appends exactly
one new document under the store-assigned fresh id, carrying the submitted
data stamped with the acting owner. -/
theorem save_update_create_contract (st : Store) (pd : Doc) (uid : String)
    (hWF : (pd.map Prod.fst).Nodup) :
    (∀ did d, storeFind st.docs did = some d →
        (save_profile (some ()) true st pd uid (some did)).1.docs.map Prod.fst
            = st.docs.map Prod.fst ∧
        (save_profile (some ()) true st pd uid (some did)).2 = SaveMsg.updated ∧
        ∃ d2,
          storeFind (save_profile (some ()) true st pd uid (some did)).1.docs did
              = some d2 ∧
          (∀ k v, getField (setField pd "user_id" (Value.s uid)) k = some v →
              getField d2 k = some v) ∧
          (∀ k, lastVal (setField pd "user_id" (Value.s uid)) k = none →
              getField d2 k = getField d k)) ∧
    ((save_profile (some ()) true st pd uid none).1.docs
        = st.docs ++ [(freshId st, setField pd "user_id" (Value.s uid))] ∧
      (save_profile (some ()) true st pd uid none).2 = SaveMsg.published ∧
      getField (setField pd "user_id" (Value.s uid)) "user_id"
          = some (Value.s uid)) := by
  have hnd2 : ((setField pd "user_id" (Value.s uid)).map Prod.fst).Nodup :=
    nodup_keys_setField pd "user_id" (Value.s uid) hWF
  constructor
  · intro did d hfind
    obtain ⟨docs2, h1, h2, h3⟩ :=
      storeUpdateDocs_of_find st.docs did d (setField pd "user_id" (Value.s uid)) hfind
    refine ⟨?_, ?_, mergeDoc d (setField pd "user_id" (Value.s uid)), ?_, ?_, ?_⟩
    · rw [save_profile_update, h1]
      exact h3
    · rw [save_profile_update, h1]
    · rw [save_profile_update, h1]
      exact h2
    · intro k v hk
      rw [getField_mergeDoc, lastVal_eq_getField _ _ hnd2, hk]
    · intro k hk
      rw [getField_mergeDoc, hk]
  · refine ⟨?_, ?_, getField_setField pd "user_id" (Value.s uid)⟩
    · rw [save_profile_create]
      rfl
    · rw [save_profile_create]

/-- Witness for C3: updating the sole stored document replaces its fields in
place under the same id, and creating appends a fresh document. -/
theorem save_update_create_contract_witness :
    ((save_profile (some ()) true
        (Store.mk [("doc0", [("name", Value.s "Old"), ("user_id", Value.s "admin_456")])] 1)
        [("name", Value.s "New")] "admin_456" (some "doc0")).1.docs.map Prod.fst
      = [("doc0", [("name", Value.s "Old"), ("user_id", Value.s "admin_456")])].map Prod.fst) ∧
    ((save_profile (some ()) true
        (Store.mk [("doc0", [("name", Value.s "Old"), ("user_id", Value.s "admin_456")])] 1)
        [("name", Value.s "New")] "admin_456" none).1.docs
      = [("doc0", [("name", Value.s "Old"), ("user_id", Value.s "admin_456")])]
          ++ [(freshId (Store.mk [("doc0", [("name", Value.s "Old"),
                ("user_id", Value.s "admin_456")])] 1),
              setField [("name", Value.s "New")] "user_id" (Value.s "admin_456"))]) :=
  ⟨((save_update_create_contract
      (Store.mk [("doc0", [("name", Value.s "Old"), ("user_id", Value.s "admin_456")])] 1)
      [("name", Value.s "New")] "admin_456" (by decide)).1 "doc0"
      [("name", Value.s "Old"), ("user_id", Value.s "admin_456")] (by decide)).1,
    ((save_update_create_contract
      (Store.mk [("doc0", [("name", Value.s "Old"), ("user_id", Value.s "admin_456")])] 1)
      [("name", Value.s "New")] "admin_456" (by decide)).2).1⟩

/-- A loaded record whose `profession` field is present but empty — exactly
what the create form stores when no profession is selected. -/
def emptyProfessionRecord : Doc :=
  [("id", Value.s "doc0"), ("name", Value.s "Ada"), ("profession", Value.l [])]

/-- Counterexample to **C4**: grouping by profession places a profile whose
`profession` field is present but holds no values in no group at all — the
`.get` default only fires when the key is absent — so it does not appear
under any "unspecified" bucket. -/
theorem empty_field_profile_ungrouped_cex :
    getField emptyProfessionRecord "profession" = some (Value.l []) ∧
    groupProfiles "profession" [emptyProfessionRecord] = [] ∧
    groupMembers (groupProfiles "profession" [emptyProfessionRecord])
        "Not specified" = [] :=
  ⟨rfl, rfl, rfl⟩

/-- **C4 (amended)**: when grouping by a categorical field, a profile whose
document lacks the field entirely appears exactly once, under the single
"Not specified" bucket, and in no other group; a profile whose field is
present but holds an empty list of values appears in no group at all. -/
theorem missing_field_unspecified_bucket (field : String) (ps : List Doc)
    (p : Doc) (hcount : ps.count p = 1) :
    (getField p field = none →
        (groupMembers (groupProfiles field ps) "Not specified").count p = 1 ∧
        ∀ k, k ≠ "Not specified" →
          (groupMembers (groupProfiles field ps) k).count p = 0) ∧
    (getField p field = some (Value.l []) →
        ∀ k, (groupMembers (groupProfiles field ps) k).count p = 0) := by
  constructor
  · intro h
    constructor
    · rw [count_groupMembers, hcount]
      simp [groupKeyOf, h]
    · intro k hk
      rw [count_groupMembers, hcount]
      simp [groupKeyOf, h, List.count_cons, fun hh : k = "Not specified" => hk hh]
  · intro h k
    rw [count_groupMembers, hcount]
    simp [groupKeyOf, h]

/-- Witness for the amended C4: a record with no `profession` key lands once
in the "Not specified" bucket and not in the "IT" bucket. -/
theorem missing_field_unspecified_bucket_witness :
    (groupMembers
        (groupProfiles "profession" [[("id", Value.s "doc1"), ("name", Value.s "Bob")]])
        "Not specified").count [("id", Value.s "doc1"), ("name", Value.s "Bob")] = 1 ∧
    (groupMembers
        (groupProfiles "profession" [[("id", Value.s "doc1"), ("name", Value.s "Bob")]])
        "IT").count [("id", Value.s "doc1"), ("name", Value.s "Bob")] = 0 :=
  ⟨((missing_field_unspecified_bucket "profession"
        [[("id", Value.s "doc1"), ("name", Value.s "Bob")]]
        [("id", Value.s "doc1"), ("name", Value.s "Bob")] (by decide)).1 (by decide)).1,
    ((missing_field_unspecified_bucket "profession"
        [[("id", Value.s "doc1"), ("name", Value.s "Bob")]]
        [("id", Value.s "doc1"), ("name", Value.s "Bob")] (by decide)).1 (by decide)).2
      "IT" (by decide)⟩

/-- A loaded record holding two profession values. -/
def adaItFinance : Doc :=
  [("id", Value.s "doc2"), ("name", Value.s "Ada"),
   ("profession", Value.l ["IT", "Finance"])]

/-- **C5**: grouping by a categorical field lists a profile exactly once per
value it holds in that field — a profile with profession `["IT", "Finance"]`
appears once in the "IT" group and once in the "Finance" group and in no
group for a value it does not hold — every rendered group header carries the
length of its member list, and under the "None" grouping a profile appears
in exactly one list entry. -/
theorem grouping_once_per_value (field : String) (ps : List Doc) (p : Doc)
    (vs : List String) (hcount : ps.count p = 1)
    (hv : getField p field = some (Value.l vs)) (hnd : vs.Nodup) :
    (∀ k, k ∈ vs → (groupMembers (groupProfiles field ps) k).count p = 1) ∧
    (∀ k, k ∉ vs → (groupMembers (groupProfiles field ps) k).count p = 0) ∧
    (∀ e ∈ renderGrouped (groupProfiles field ps), e.2.1 = e.2.2.length) ∧
    (renderUngrouped ps).count p = 1 := by
  refine ⟨?_, ?_, ?_, hcount⟩
  · intro k hk
    rw [count_groupMembers, hcount]
    simp only [groupKeyOf, hv]
    rw [List.count_eq_one_of_mem hnd hk]
  · intro k hk
    rw [count_groupMembers, hcount]
    simp only [groupKeyOf, hv]
    rw [List.count_eq_zero_of_not_mem hk]
  · intro e he
    simp only [renderGrouped, List.mem_map] at he
    obtain ⟨q, hq, rfl⟩ := he
    rfl

/-- Witness for C5: Ada with professions IT and Finance is counted once in
each of those groups and not in HR. -/
theorem grouping_once_per_value_witness :
    (groupMembers (groupProfiles "profession" [adaItFinance]) "IT").count
        adaItFinance = 1 ∧
    (groupMembers (groupProfiles "profession" [adaItFinance]) "Finance").count
        adaItFinance = 1 ∧
    (groupMembers (groupProfiles "profession" [adaItFinance]) "HR").count
        adaItFinance = 0 :=
  ⟨(grouping_once_per_value "profession" [adaItFinance] adaItFinance
      ["IT", "Finance"] (by decide) (by decide) (by decide)).1 "IT" (by decide),
    (grouping_once_per_value "profession" [adaItFinance] adaItFinance
      ["IT", "Finance"] (by decide) (by decide) (by decide)).1 "Finance" (by decide),
    (grouping_once_per_value "profession" [adaItFinance] adaItFinance
      ["IT", "Finance"] (by decide) (by decide) (by decide)).2.1 "HR" (by decide)⟩

theorem lastVal_stamped_additional (f : FormInput) (uid : String) :
    lastVal (setField (buildProfileData f) "user_id" (Value.s uid)) "additional_info"
      = some (Value.l (cleanedInfo f.additional_info_list)) := rfl

/-- **C6**: round-trip — publishing a submission and then loading profiles
returns the prior records followed by one new record whose `additional_info`
is exactly the subsequence of non-blank submitted entries in order; blank or
whitespace-only entries are never persisted. -/
theorem additional_info_roundtrip (st : Store) (uid : String) (f : FormInput)
    (h : emptySubmission f = false) :
    ∃ r,
      (load_profiles (some ()) true (createSubmit (some ()) true st uid f).1).1
          = (load_profiles (some ()) true st).1 ++ [r] ∧
      getField r "additional_info"
          = some (Value.l (f.additional_info_list.filter strippedTruthy)) ∧
      ∀ s ∈ f.additional_info_list.filter strippedTruthy,
        strippedTruthy s = true := by
  refine ⟨attachId (freshId st)
      (setField (buildProfileData f) "user_id" (Value.s uid)), ?_, ?_, ?_⟩
  · simp [createSubmit, h, save_profile_create, load_profiles_ok, storeAdd]
  · rw [attachId, getField_mergeDoc, lastVal_stamped_additional]
    rfl
  · intro s hs
    exact (List.mem_filter.mp hs).2

/-- Witness for C6: submitting `["", "Certified X", ""]` persists and lists
exactly `["Certified X"]`. -/
theorem additional_info_roundtrip_witness :
    sampleForm.additional_info_list.filter strippedTruthy = ["Certified X"] ∧
    (∃ r,
      (load_profiles (some ()) true
          (createSubmit (some ()) true (Store.mk [] 0) "admin_456" sampleForm).1).1
          = (load_profiles (some ()) true (Store.mk [] 0)).1 ++ [r] ∧
      getField r "additional_info"
          = some (Value.l (sampleForm.additional_info_list.filter strippedTruthy)) ∧
      ∀ s ∈ sampleForm.additional_info_list.filter strippedTruthy,
        strippedTruthy s = true) :=
  ⟨rfl, additional_info_roundtrip (Store.mk [] 0) "admin_456" sampleForm (by decide)⟩

/-- A store holding one document owned by the acting placeholder identity. -/
def oneDocStore : Store :=
  Store.mk [("doc0", [("name", Value.s "Old"), ("user_id", Value.s "admin_456")])] 1

/-- A session in edit mode on the record loaded from `oneDocStore`. -/
def editingUI : UIState :=
  { edit_mode := true,
    profile_to_edit :=
      [("id", Value.s "doc0"), ("name", Value.s "Old"),
       ("user_id", Value.s "admin_456")],
    additional_info_list := [""] }

/-- Counterexample to **C7**: with the store failing, a validated update
submission reports a save error — the update did not complete successfully —
yet the session still leaves edit mode: the handler resets `edit_mode` after
the `save_profile` call no matter what that call reported. -/
theorem failed_update_leaves_editing_cex :
    (editStep (some ()) false oneDocStore "admin_456" editingUI
        (EditEvent.submitUpdate sampleForm)).2.2
      = some (StepMsg.saved SaveMsg.errorMsg) ∧
    (editStep (some ()) false oneDocStore "admin_456" editingUI
        (EditEvent.submitUpdate sampleForm)).2.1.edit_mode = false := by
  constructor <;> rfl

/-- **C7 (amended)**: from the Editing state the session transitions to
Composing exactly on an explicit cancel or on a validated (non-empty) update
submission — whether or not the store write succeeded — and remains in
Editing on every other step (a validation-rejected submission or adding
another info block). -/
theorem edit_mode_transition (db_client : Option Unit) (storeOk : Bool)
    (st : Store) (uid : String) (ui : UIState) (e : EditEvent)
    (h : ui.edit_mode = true) :
    (editStep db_client storeOk st uid ui e).2.1.edit_mode = false ↔
      (e = EditEvent.cancelEdit ∨
        ∃ f, e = EditEvent.submitUpdate f ∧ emptySubmission f = false) := by
  cases e with
  | cancelEdit => simp [editStep, resetUI]
  | addBlock => simp [editStep, h]
  | submitUpdate f =>
      by_cases hf : emptySubmission f
      · simp [editStep, editSubmit, hf, h]
      · simp only [Bool.not_eq_true] at hf
        simp [editStep, editSubmit, hf, resetUI]

/-- Witness for the amended C7: cancelling leaves edit mode, and a rejected
(empty) update submission stays in edit mode. -/
theorem edit_mode_transition_witness :
    (editStep (some ()) true oneDocStore "admin_456" editingUI
        EditEvent.cancelEdit).2.1.edit_mode = false ∧
    ¬ (editStep (some ()) true oneDocStore "admin_456" editingUI
        (EditEvent.submitUpdate emptyForm)).2.1.edit_mode = false :=
  ⟨(edit_mode_transition (some ()) true oneDocStore "admin_456" editingUI
      EditEvent.cancelEdit (by decide)).mpr (Or.inl rfl),
    fun hc => by
      rcases (edit_mode_transition (some ()) true oneDocStore "admin_456" editingUI
          (EditEvent.submitUpdate emptyForm) (by decide)).mp hc with h | ⟨f, hf, he⟩
      · exact EditEvent.noConfusion h
      · cases hf
        exact absurd he (by decide)⟩

/-- **C8**: `load_profiles` returns every stored document with its
identifier attached — and nothing else — and an empty list with no error for
a reachable empty store; every store failure during save or load is caught
at its call site, reported as a user-visible message, and aborts the
operation with the store unchanged (both functions are total, so no
exception escapes to the caller). -/
theorem store_errors_caught (st : Store) (pd : Doc) (uid : String)
    (did : Option String) (did2 : String) :
    (∀ q ∈ st.docs, attachId q.1 q.2 ∈ (load_profiles (some ()) true st).1) ∧
    (∀ r ∈ (load_profiles (some ()) true st).1,
        ∃ q ∈ st.docs, r = attachId q.1 q.2) ∧
    ((load_profiles (some ()) true (Store.mk [] st.nextId)).1 = [] ∧
      (load_profiles (some ()) true (Store.mk [] st.nextId)).2 = LoadMsg.ok) ∧
    (save_profile (some ()) false st pd uid did = (st, SaveMsg.errorMsg)) ∧
    (storeFind st.docs did2 = none →
        save_profile (some ()) true st pd uid (some did2) = (st, SaveMsg.errorMsg)) ∧
    (load_profiles (some ()) false st = ([], LoadMsg.errorShown)) := by
  refine ⟨?_, ?_, ⟨rfl, rfl⟩, save_profile_storeFail st pd uid did, ?_, rfl⟩
  · intro q hq
    rw [load_profiles_ok]
    exact List.mem_map_of_mem _ hq
  · intro r hr
    rw [load_profiles_ok] at hr
    obtain ⟨q, hq, rfl⟩ := List.mem_map.mp hr
    exact ⟨q, hq, rfl⟩
  · intro hnone
    rw [save_profile_update,
      storeUpdateDocs_of_find_none st.docs did2 _ hnone]

/-- Witness for C8: a failing store aborts a save and a load with an error
message and no state change, and updating a missing document id is caught
the same way. -/
theorem store_errors_caught_witness :
    save_profile (some ()) false oneDocStore [("name", Value.s "New")] "admin_456" none
        = (oneDocStore, SaveMsg.errorMsg) ∧
    save_profile (some ()) true oneDocStore [("name", Value.s "New")] "admin_456"
        (some "missing") = (oneDocStore, SaveMsg.errorMsg) ∧
    load_profiles (some ()) false oneDocStore = ([], LoadMsg.errorShown) :=
  ⟨(store_errors_caught oneDocStore [("name", Value.s "New")] "admin_456" none
      "missing").2.2.2.1,
    (store_errors_caught oneDocStore [("name", Value.s "New")] "admin_456" none
      "missing").2.2.2.2.1 (by decide),
    (store_errors_caught oneDocStore [("name", Value.s "New")] "admin_456" none
      "missing").2.2.2.2.2⟩

/-- A stored document owned by a different (non-acting) identity. -/
def foreignDoc : Doc := [("name", Value.s "Eve"), ("user_id", Value.s "user_123")]

/-- A store holding only `foreignDoc`. -/
def foreignStore : Store := Store.mk [("docF", foreignDoc)] 1

/-- Counterexample to **C9**: updating a document with field values
identical to its current contents still restamps the owner with the acting
user's id, so the stored document of a differently-owned record changes. -/
theorem identical_update_changes_owner_cex :
    (save_profile (some ()) true foreignStore [("name", Value.s "Eve")]
        "admin_456" (some "docF")).2 = SaveMsg.updated ∧
    storeFind (save_profile (some ()) true foreignStore [("name", Value.s "Eve")]
        "admin_456" (some "docF")).1.docs "docF"
      = some [("name", Value.s "Eve"), ("user_id", Value.s "admin_456")] ∧
    foreignDoc ≠ [("name", Value.s "Eve"), ("user_id", Value.s "admin_456")] :=
  ⟨rfl, rfl, by decide⟩

/-- **C9 (amended)**: updating an existing document with field values
identical to its current contents leaves the store entirely unchanged,
provided the document's stored owner id equals the acting user's id (the
update unconditionally restamps the owner, so a document stored under a
different owner id does change). -/
theorem update_idempotent_same_owner (st : Store) (did uid : String)
    (d pd : Doc) (hfind : storeFind st.docs did = some d)
    (hWF : (pd.map Prod.fst).Nodup)
    (hmatch : ∀ kv ∈ pd, kv.1 ≠ "user_id" → getField d kv.1 = some kv.2)
    (howner : getField d "user_id" = some (Value.s uid)) :
    save_profile (some ()) true st pd uid (some did) = (st, SaveMsg.updated) := by
  have hmerge : mergeDoc d (setField pd "user_id" (Value.s uid)) = d := by
    apply mergeDoc_self
    intro kv hkv
    rcases mem_setField pd "user_id" (Value.s uid) kv hWF hkv with h | h
    · rw [h]
      exact howner
    · exact hmatch kv h.1 h.2
  rw [save_profile_update, storeUpdateDocs_self st.docs did d _ hfind hmerge]

/-- Witness for the amended C9: resubmitting the stored field values of the
acting user's own document leaves the store untouched. -/
theorem update_idempotent_same_owner_witness :
    save_profile (some ()) true oneDocStore [("name", Value.s "Old")] "admin_456"
        (some "doc0") = (oneDocStore, SaveMsg.updated) :=
  update_idempotent_same_owner oneDocStore "doc0" "admin_456"
    [("name", Value.s "Old"), ("user_id", Value.s "admin_456")]
    [("name", Value.s "Old")] (by decide) (by decide) (by decide) (by decide)

/-- **C10**: the record `load_profiles` builds for a stored document merges
the document's own fields over the attached id, so a document that itself
contains an `id` field is listed with that stored value as its `id`,
shadowing the document identifier; only a document without its own `id`
field is guaranteed to carry the document identifier. -/
theorem stored_id_field_shadows_doc_id (st : Store) (i : String) (d : Doc)
    (hnd : (d.map Prod.fst).Nodup) (hm : (i, d) ∈ st.docs) :
    attachId i d ∈ (load_profiles (some ()) true st).1 ∧
    (∀ v, getField d "id" = some v → getField (attachId i d) "id" = some v) ∧
    (getField d "id" = none → getField (attachId i d) "id" = some (Value.s i)) := by
  refine ⟨?_, ?_, ?_⟩
  · rw [load_profiles_ok]
    exact List.mem_map_of_mem _ hm
  · intro v hv
    rw [attachId, getField_mergeDoc, lastVal_eq_getField d _ hnd, hv]
  · intro hv
    rw [attachId, getField_mergeDoc, lastVal_eq_getField d _ hnd, hv]
    rfl

/-- A stored document carrying its own `id` field. -/
def shadowDoc : Doc := [("id", Value.s "spoofed"), ("name", Value.s "Mallory")]

/-- Witness for C10: the record listed for `shadowDoc` under document id
`"docS"` reports `id = "spoofed"`. -/
theorem stored_id_field_shadows_doc_id_witness :
    getField (attachId "docS" shadowDoc) "id" = some (Value.s "spoofed") :=
  (stored_id_field_shadows_doc_id (Store.mk [("docS", shadowDoc)] 1) "docS"
      shadowDoc (by decide) (by decide)).2.1 (Value.s "spoofed") (by decide)

end CVBank
